import Mathlib

/-!
# Verification of the OpenVINO notebooks repository

A shallow embedding, in Lean 4, of the computational content of the
notebooks in this repository:

* the super-resolution post-processing function `convert_result_to_image`
  of notebook 215 (both its returned value and its in-place effect on the
  caller's buffer),
* the pre-processing pipelines of notebooks 215 and 002,
* the device-selection expression and the data-preparation cell of the
  CT-scan live-inference notebook,
* the sorted image-path listing that fixes the frame order, and
* the asynchronous live-inference pipeline (`show_live_inference` from
  `notebook_utils`), whose code is not part of this source tree and is
  therefore modelled from the specification's scheduler description.

NumPy float arrays are embedded as total functions from `Fin`-indexed
coordinates to `ℚ` (exact arithmetic standing in for the array's
real-valued entries); `uint8` arrays map to `Nat` values below 256.
-/

namespace OVNotebooks

/-! ## Notebook 215: `convert_result_to_image`

Source (cell 8 of `215-text-image-superresolution.ipynb`):
```
def convert_result_to_image(result) -> np.ndarray:
    result = result.squeeze(0).transpose(1, 2, 0)
    result *= 255
    result[result < 0] = 0
    result[result > 255] = 255
    result = result.astype(np.uint8)
    return result
```
The input has shape `(1, C, H, W)`.  `squeeze(0)` and `transpose(1, 2, 0)`
return *views* of the caller's buffer whose element `(h, w, c)` aliases
buffer location `(0, c, h, w)`; the three middle statements write through
that view in place; `astype` allocates a fresh `uint8` array.
-/

/-- The view produced by `result.squeeze(0).transpose(1, 2, 0)` on an
array of shape `(1, C, H, W)`: element `(h, w, c)` reads buffer location
`(0, c, h, w)`. -/
def np_squeeze0_transpose120 {C H W : Nat}
    (result : Fin 1 → Fin C → Fin H → Fin W → ℚ) :
    Fin H → Fin W → Fin C → ℚ :=
  fun h w c => result 0 c h w

/-- Elementwise effect of the in-place statement `result *= 255`. -/
def np_imul255 {C H W : Nat} (v : Fin H → Fin W → Fin C → ℚ) :
    Fin H → Fin W → Fin C → ℚ :=
  fun h w c => v h w c * 255

/-- Elementwise effect of the masked assignment `result[result < 0] = 0`. -/
def np_mask_lt0 {C H W : Nat} (v : Fin H → Fin W → Fin C → ℚ) :
    Fin H → Fin W → Fin C → ℚ :=
  fun h w c => if v h w c < 0 then 0 else v h w c

/-- Elementwise effect of the masked assignment `result[result > 255] = 255`. -/
def np_mask_gt255 {C H W : Nat} (v : Fin H → Fin W → Fin C → ℚ) :
    Fin H → Fin W → Fin C → ℚ :=
  fun h w c => if v h w c > 255 then 255 else v h w c

/-- The cast `astype(np.uint8)` on a float array: C-style conversion, truncation
toward zero reduced modulo 2^8 (every value reaching it in this notebook
has already been clipped into `[0, 255]`). -/
def np_astype_uint8 {C H W : Nat} (v : Fin H → Fin W → Fin C → ℚ) :
    Fin H → Fin W → Fin C → Nat :=
  fun h w c => (Int.toNat ⌊v h w c⌋) % 256

/-- The view contents after the three in-place statements of
`convert_result_to_image` have run. -/
def convert_steps {C H W : Nat} (result : Fin 1 → Fin C → Fin H → Fin W → ℚ) :
    Fin H → Fin W → Fin C → ℚ :=
  np_mask_gt255 (np_mask_lt0 (np_imul255 (np_squeeze0_transpose120 result)))

/-- Value returned by `convert_result_to_image`: the freshly allocated
`uint8` array produced by the final `astype`. -/
def convert_result_to_image {C H W : Nat}
    (result : Fin 1 → Fin C → Fin H → Fin W → ℚ) :
    Fin H → Fin W → Fin C → Nat :=
  np_astype_uint8 (convert_steps result)

/-- Contents of the *caller's* `(1, C, H, W)` buffer after
`convert_result_to_image` returns.  Because `squeeze(0).transpose(1, 2, 0)`
is a bijective re-indexing view of the whole buffer, the in-place
statements rewrite buffer location `(b, c, h, w)` with the final view value
at `(h, w, c)`; the concluding `astype` copies and does not write back. -/
def convert_caller_buffer_after {C H W : Nat}
    (result : Fin 1 → Fin C → Fin H → Fin W → ℚ) :
    Fin 1 → Fin C → Fin H → Fin W → ℚ :=
  fun _ c h w => convert_steps result h w c

/-! ## Device selection (CT-scan live-inference notebook)

Source (benchmark cell and live-inference cell):
```
device = "MULTI:CPU,GPU" if "GPU" in ie.available_devices else "CPU"
```
-/

/-- The device-selection expression of the benchmark and live-inference
cells, over the Inference Engine's list of available device names. -/
def select_device (available_devices : List String) : String :=
  if "GPU" ∈ available_devices then "MULTI:CPU,GPU" else "CPU"

/-! ## Data preparation cell (CT-scan live-inference notebook)

Source:
```
case_path = BASEDIR / f"case_{CASE:05d}"
if not case_path.exists():
    filename = download_file(".../case_00117.zip")
    with zipfile.ZipFile(filename, "r") as zip_ref:
        zip_ref.extractall(path=BASEDIR)
    os.remove(filename)  # remove zipfile
```
The filesystem is embedded as the list of existing paths; `download_file`
creates the zip file, `extractall` creates the case directory (the archive
holds the `case_00117` data), `os.remove` deletes the zip file.
-/

def casePathStr : String := "kits19_frames_1/case_00117"

def zipFileName : String := "case_00117.zip"

/-- Effect of the data-preparation cell on the filesystem. -/
def dataPrepCell (fs : List String) : List String :=
  if casePathStr ∈ fs then fs
  else List.erase (fs ++ [zipFileName] ++ [casePathStr]) zipFileName

/-! ## Frame listing (CT-scan live-inference notebook)

Source: `image_paths = sorted(case_path.glob("imaging_frames/*jpg"))`.
Python's `sorted` orders `Path` objects by their path strings; string
comparison is lexicographic.  The glob listing is embedded as an arbitrary
list of path strings.
-/

/-- The listing `sorted(case_path.glob("imaging_frames/*jpg"))` over the glob result. -/
def image_paths (globbed : List String) : List String :=
  List.insertionSort (· ≤ ·) globbed

/-! ## Pre-processing pipelines (notebooks 215 and 002)

Notebook 215, cell 8:
```
gray_img = bgr_to_gray(img)                       # cv2.cvtColor(img, COLOR_BGR2GRAY)
resized_img = cv2.resize(gray_img, (input_width, input_height))
input_img = np.expand_dims(resized_img, axis=0)
input_img = np.expand_dims(input_img, axis=0)
```
Notebook 002:
```
resized_image = cv2.resize(src=image, dsize=(W, H))
input_data = np.expand_dims(np.transpose(resized_image, (2, 0, 1)), 0).astype(np.float32)
```
`cv2.cvtColor` and `cv2.resize` are external OpenCV routines that allocate
fresh output arrays; they are abstracted as function parameters.
`np.expand_dims` and `np.transpose` produce read-only views and the
pipelines never write through them, so the caller's frame buffer is
untouched; both pipelines are returned together with the frame contents
they leave behind. -/

/-- A `uint8` BGR image: height, width, 3 channels. -/
def BGRImage (H W : Nat) : Type := Fin H → Fin W → Fin 3 → Nat

/-- A `uint8` single-channel (grayscale) image. -/
def GrayImage (H W : Nat) : Type := Fin H → Fin W → Nat

/-- The 215 preprocessing cell: grayscale conversion, resize to the
model's spatial size, and two `np.expand_dims` producing the
`(batch, channel, height, width) = (1, 1, h, w)` layout.  Returns the
caller's frame contents after the cell together with the input tensor. -/
def preprocessing215 {H W h w : Nat}
    (cvtColor : BGRImage H W → GrayImage H W)
    (resize : GrayImage H W → GrayImage h w)
    (img : BGRImage H W) :
    BGRImage H W × (Fin 1 → Fin 1 → Fin h → Fin w → Nat) :=
  let gray_img := cvtColor img
  let resized_img := resize gray_img
  let input_img : Fin 1 → Fin h → Fin w → Nat := fun _ i j => resized_img i j
  let input_img2 : Fin 1 → Fin 1 → Fin h → Fin w → Nat := fun _ b i j => input_img b i j
  (img, input_img2)

/-- The 002 preprocessing cell: resize, `np.transpose(·, (2, 0, 1))` to
`(channel, height, width)`, `np.expand_dims(·, 0)` to `(1, C, h, w)`, and
`astype(np.float32)` (exact on `uint8` values).  Returns the caller's
image contents after the cell together with the input tensor. -/
def input_data002 {H W h w C : Nat}
    (resize : (Fin H → Fin W → Fin C → Nat) → (Fin h → Fin w → Fin C → Nat))
    (image : Fin H → Fin W → Fin C → Nat) :
    (Fin H → Fin W → Fin C → Nat) × (Fin 1 → Fin C → Fin h → Fin w → ℚ) :=
  let resized_image := resize image
  let transposed : Fin C → Fin h → Fin w → Nat := fun c i j => resized_image i j c
  let input_data : Fin 1 → Fin C → Fin h → Fin w → ℚ := fun _ c i j => (transposed c i j : ℚ)
  (image, input_data)

/-- A concrete `(1, 1, 1, 1)` input whose single entry is `1/2`. -/
def exHalfInput : Fin 1 → Fin 1 → Fin 1 → Fin 1 → ℚ := fun _ _ _ _ => 1 / 2

/-- A concrete 1×1 BGR frame. -/
def exImg : BGRImage 1 1 := fun _ _ _ => 7

/-- A concrete stand-in for `cv2.cvtColor(·, COLOR_BGR2GRAY)` on a 1×1 frame. -/
def exCvt : BGRImage 1 1 → GrayImage 1 1 := fun im i j => im i j 0

/-- A concrete stand-in for `cv2.resize` on a 1×1 grayscale frame. -/
def exResizeG : GrayImage 1 1 → GrayImage 1 1 := fun g => g

/-- A concrete 1×1×1 image for the 002 pipeline. -/
def exImg002 : Fin 1 → Fin 1 → Fin 1 → Nat := fun _ _ _ => 3

/-- A concrete stand-in for `cv2.resize` in the 002 pipeline. -/
def exResize002 : (Fin 1 → Fin 1 → Fin 1 → Nat) → (Fin 1 → Fin 1 → Fin 1 → Nat) := fun a => a

/-! ## The asynchronous live-inference pipeline

Modelled from the spec: `show_live_inference` (from `notebook_utils`, not
part of this source tree) drives the frames through Open Model Zoo's
`AsyncPipeline`.  The spec describes it as a bounded pool of `N`
inference slots, a reorder buffer, and an emit cursor (§4.3): while
frames remain and a slot is idle, the next frame is submitted; when the
request bound to frame `j` completes, its result is buffered; results
are rendered in strictly increasing frame order as the cursor catches
up; on `InferenceFailure` the run aborts fail-fast, surfacing the
failing frame's index.

Frames are their indices `0, 1, ..., M-1` (positions in the sorted
`image_paths`).  The adversary `sched : Nat → Nat` chooses, at each
completion event, which in-flight request finishes (index
`sched t % inflight.length` of the in-flight list), so every completion
order is realizable.  `failAt = some k` makes the Inference Engine fail
the request bound to frame `k`; `none` is a failure-free run. -/

/-- Modelled from the spec: the scheduler state of §4.3 — in-flight frame
indices (Submitted requests), the reorder buffer of completed-but-unrendered
frame indices, the emit cursor, the next frame index to submit, the
sequence of rendered frame indices, and the surfaced error, if any. -/
structure PipelineState where
  inflight : List Nat
  buffer : List Nat
  cursor : Nat
  nextSubmit : Nat
  renders : List Nat
  error : Option Nat
  deriving Repr, DecidableEq

/-- Modelled from the spec: step 1 of §4.3 — while frames remain and a
slot is idle, submit the next frame.  Fuel-driven structural recursion;
fuel `M` always suffices. -/
def fillFuel (N M : Nat) : Nat → PipelineState → PipelineState
  | 0, s => s
  | fuel + 1, s =>
    if s.nextSubmit < M ∧ s.inflight.length < N then
      fillFuel N M fuel
        { s with inflight := s.inflight ++ [s.nextSubmit], nextSubmit := s.nextSubmit + 1 }
    else s

/-- Modelled from the spec: step 3 of §4.3 — drain the reorder buffer at
the cursor: render consecutive completed frames; on the failing frame,
abort fail-fast, surfacing that frame's index.  Fuel-driven; the buffer
length suffices as fuel. -/
def flushFuel (failAt : Option Nat) : Nat → PipelineState → PipelineState
  | 0, s => s
  | fuel + 1, s =>
    if s.cursor ∈ s.buffer then
      if failAt = some s.cursor then { s with error := some s.cursor }
      else
        flushFuel failAt fuel
          { s with buffer := s.buffer.erase s.cursor,
                   renders := s.renders ++ [s.cursor], cursor := s.cursor + 1 }
    else s

/-- Modelled from the spec: completion of the Request bound to frame `j`
— the slot is freed, `j`'s result enters the reorder buffer, and the
buffer is drained in index order. -/
def completeReq (failAt : Option Nat) (j : Nat) (s : PipelineState) : PipelineState :=
  flushFuel failAt (s.buffer ++ [j]).length
    { s with inflight := s.inflight.erase j, buffer := s.buffer ++ [j] }

/-- Modelled from the spec: one completion event — the adversarially
chosen in-flight request completes, its frame is buffered (or surfaces
the failure), the buffer is drained in index order, and freed slots are
refilled.  After an abort no further work happens. -/
def step (N M : Nat) (failAt : Option Nat) (pick : Nat) (s : PipelineState) : PipelineState :=
  if s.error.isSome then s
  else if s.inflight.isEmpty then s
  else if (completeReq failAt (s.inflight.getD (pick % s.inflight.length) 0) s).error.isSome then
    completeReq failAt (s.inflight.getD (pick % s.inflight.length) 0) s
  else
    fillFuel N M M (completeReq failAt (s.inflight.getD (pick % s.inflight.length) 0) s)

/-- Modelled from the spec: the state before any submission. -/
def initState : PipelineState :=
  { inflight := [], buffer := [], cursor := 0, nextSubmit := 0, renders := [], error := none }

/-- Modelled from the spec: the scheduler state after the initial fill
and `t` completion events. -/
def stateAt (N M : Nat) (failAt : Option Nat) (sched : Nat → Nat) : Nat → PipelineState
  | 0 => fillFuel N M M initState
  | t + 1 => step N M failAt (sched t) (stateAt N M failAt sched t)

/-- Modelled from the spec: a whole run of `show_live_inference` over `M`
frames — every frame completes exactly once, so `M` completion events
exhaust the run (fewer when it aborts, after which events are no-ops). -/
def runPipeline (N M : Nat) (failAt : Option Nat) (sched : Nat → Nat) : PipelineState :=
  stateAt N M failAt sched M

/-- Modelled from the spec: the Throughput Reporter (§4.5) divides the
completed frame count by the elapsed wall-clock time. -/
def throughput_fps (frames : Nat) (elapsed : ℚ) : ℚ :=
  (frames : ℚ) / elapsed

/-- The scheduler invariant, maintained at every observable state of a
run: renders are exactly the frames below the cursor; in-flight and
buffered frames partition the submitted-but-unrendered window; at most
`N` requests are in flight; slots are saturated while frames remain; the
cursor never passes the failing frame; and a surfaced error names the
frame at the cursor and matches the configured failure. -/
structure Inv (N M : Nat) (failAt : Option Nat) (s : PipelineState) : Prop where
  renders_eq : s.renders = List.range s.cursor
  cursor_le : s.cursor ≤ s.nextSubmit
  submit_le : s.nextSubmit ≤ M
  window : ((s.inflight : Multiset Nat) + (s.buffer : Multiset Nat) =
    (List.range' s.cursor (s.nextSubmit - s.cursor) : Multiset Nat))
  inflight_le : s.inflight.length ≤ N
  cursor_unbuffered : s.error = none → s.cursor ∉ s.buffer
  filled : s.error = none → ¬(s.nextSubmit < M ∧ s.inflight.length < N)
  cursor_le_fail : s.error = none → ∀ k, failAt = some k → s.cursor ≤ k
  error_sound : ∀ e, s.error = some e → e = s.cursor ∧ failAt = some e

/-! ## Theorems: post-processing, device selection, data prep, sorting -/

/-- Pointwise value of the in-place pipeline of `convert_result_to_image`:
scale by 255, then clip to `[0, 255]`. -/
theorem convert_steps_eq_clip {C H W : Nat}
    (result : Fin 1 → Fin C → Fin H → Fin W → ℚ) (h : Fin H) (w : Fin W) (c : Fin C) :
    convert_steps result h w c = min 255 (max 0 (result 0 c h w * 255)) := by
  unfold convert_steps np_mask_gt255 np_mask_lt0 np_imul255 np_squeeze0_transpose120
  rw [min_def, max_def]
  split_ifs <;> linarith

/-- The clipped value lies in `[0, 255]`, so its floor's `toNat` is below 256. -/
theorem convert_steps_floor_lt {C H W : Nat}
    (result : Fin 1 → Fin C → Fin H → Fin W → ℚ) (h : Fin H) (w : Fin W) (c : Fin C) :
    Int.toNat ⌊convert_steps result h w c⌋ < 256 := by
  rw [convert_steps_eq_clip]
  have hle : min 255 (max 0 (result 0 c h w * 255)) ≤ (255 : ℚ) := min_le_left _ _
  have hfl : ⌊min 255 (max 0 (result 0 c h w * 255))⌋ ≤ (255 : ℤ) := by
    have := Int.floor_le_floor hle
    simpa using this
  omega

/-- The in-place pipeline value at the entry `1/2` is `127.5`. -/
theorem convert_steps_exHalf : convert_steps exHalfInput 0 0 0 = 255 / 2 := by
  unfold convert_steps np_mask_gt255 np_mask_lt0 np_imul255 np_squeeze0_transpose120 exHalfInput
  norm_num

/-- The returned `uint8` element at the entry `1/2` is `127`. -/
theorem convert_result_exHalf : convert_result_to_image exHalfInput 0 0 0 = 127 := by
  unfold convert_result_to_image np_astype_uint8
  rw [convert_steps_exHalf]
  norm_num
  rfl

/-- C3, counterexample: on the input whose entry is `1/2`, the returned
`uint8` element is `127`, which is not equal to the entry scaled by 255 and
clipped to `[0, 255]` (that value is `127.5`): the `astype(np.uint8)` cast
additionally truncates to an integer. -/
theorem convert_result_half_ne_clip :
    convert_result_to_image exHalfInput 0 0 0 = 127 ∧
      ((convert_result_to_image exHalfInput 0 0 0 : Nat) : ℚ) ≠
        min 255 (max 0 (exHalfInput 0 0 0 0 * 255)) := by
  refine ⟨convert_result_exHalf, ?_⟩
  intro hcontra
  rw [convert_result_exHalf, ← convert_steps_eq_clip exHalfInput 0 0 0,
    convert_steps_exHalf] at hcontra
  norm_num at hcontra

/-- C3, amended: `convert_result_to_image` on a `(1, C, H, W)` array
returns an `(H, W, C)` array (encoded in the result type) of `uint8`
values (below 256), where every element is the floor (integer truncation)
of the input element scaled by 255 and clipped to `[0, 255]`. -/
theorem convert_result_to_image_correct {C H W : Nat}
    (result : Fin 1 → Fin C → Fin H → Fin W → ℚ) (h : Fin H) (w : Fin W) (c : Fin C) :
    convert_result_to_image result h w c =
        Int.toNat ⌊min 255 (max 0 (result 0 c h w * 255))⌋ ∧
      convert_result_to_image result h w c < 256 := by
  have hlt := convert_steps_floor_lt result h w c
  have hval : convert_result_to_image result h w c = Int.toNat ⌊convert_steps result h w c⌋ := by
    unfold convert_result_to_image np_astype_uint8
    exact Nat.mod_eq_of_lt hlt
  refine ⟨?_, ?_⟩
  · rw [hval, convert_steps_eq_clip]
  · rw [hval]; exact hlt

/-- C9: after `convert_result_to_image` returns, the caller's original
float buffer has been mutated in place — every element at `(b, c, h, w)`
now holds its old value multiplied by 255 and clipped to `[0, 255]`
(the writes land through the `squeeze`/`transpose` views) — and on the
concrete input with entry `1/2` the buffer really differs from the
original. -/
theorem convert_result_mutates_caller :
    (∀ (C H W : Nat) (result : Fin 1 → Fin C → Fin H → Fin W → ℚ)
        (b : Fin 1) (c : Fin C) (h : Fin H) (w : Fin W),
        convert_caller_buffer_after result b c h w =
          min 255 (max 0 (result 0 c h w * 255))) ∧
      convert_caller_buffer_after exHalfInput ≠ exHalfInput := by
  constructor
  · intro C H W result b c h w
    unfold convert_caller_buffer_after
    exact convert_steps_eq_clip result h w c
  · intro hcontra
    have h1 : convert_caller_buffer_after exHalfInput 0 0 0 0 = exHalfInput 0 0 0 0 := by
      rw [hcontra]
    have h2 : convert_caller_buffer_after exHalfInput 0 0 0 0 = 255 / 2 := by
      unfold convert_caller_buffer_after
      exact convert_steps_exHalf
    rw [h2] at h1
    unfold exHalfInput at h1
    norm_num at h1

/-- C5: the chosen device string is `"MULTI:CPU,GPU"` exactly when
`"GPU"` appears in the Inference Engine's available-device list, and is
the default `"CPU"` otherwise — a GPU device is never selected when
unavailable. -/
theorem select_device_correct (available_devices : List String) :
    (select_device available_devices = "MULTI:CPU,GPU" ↔ "GPU" ∈ available_devices) ∧
      ("GPU" ∉ available_devices → select_device available_devices = "CPU") := by
  unfold select_device
  by_cases hg : "GPU" ∈ available_devices
  · simp [hg]
  · simp [hg]

/-- Witness for C5 at the concrete device list `["CPU"]`: the fallback
branch is taken. -/
theorem select_device_correct_witness : select_device ["CPU"] = "CPU" :=
  (select_device_correct ["CPU"]).2 (by decide)

/-- C8: `image_paths` is a permutation of the glob listing, arranged in
non-decreasing lexicographic path order (sorted under `≤`), so Frame
index `i` is assigned to the `i`-th path of that order. -/
theorem image_paths_sorted_perm (globbed : List String) :
    (image_paths globbed).Perm globbed ∧
      List.Sorted (· ≤ ·) (image_paths globbed) :=
  ⟨List.perm_insertionSort _ _, List.sorted_insertionSort _ _⟩

/-- C10: if the case directory already exists the data-preparation cell
leaves the filesystem exactly as it was (no write at all), and in either
branch the case directory exists afterwards. -/
theorem dataPrepCell_idempotent (fs : List String) :
    (casePathStr ∈ fs → dataPrepCell fs = fs) ∧ casePathStr ∈ dataPrepCell fs := by
  constructor
  · intro hmem
    unfold dataPrepCell
    rw [if_pos hmem]
  · by_cases hmem : casePathStr ∈ fs
    · unfold dataPrepCell
      rw [if_pos hmem]
      exact hmem
    · unfold dataPrepCell
      rw [if_neg hmem]
      have hne : casePathStr ≠ zipFileName := by decide
      rw [List.mem_erase_of_ne hne]
      simp

/-- Witness for C10 on a filesystem that already holds the case directory:
the cell is a no-op. -/
theorem dataPrepCell_idempotent_witness : dataPrepCell [casePathStr] = [casePathStr] :=
  (dataPrepCell_idempotent [casePathStr]).1 (by simp)

/-- C4: both preprocessing pipelines leave the caller's frame untouched,
re-running them on the same frame yields bit-identical tensors, and the
output tensor has the `(batch, channel, height, width)` layout: entry
`(b, b', i, j)` (215) resp. `(b, c, i, j)` (002) is exactly the resized
value at spatial position `(i, j)` (and channel `c`). -/
theorem preprocessing_pure_deterministic :
    (∀ (H W h w : Nat) (cvtColor : BGRImage H W → GrayImage H W)
        (resize : GrayImage H W → GrayImage h w) (img img' : BGRImage H W),
        (preprocessing215 cvtColor resize img).1 = img ∧
        (img = img' →
          (preprocessing215 cvtColor resize img).2 = (preprocessing215 cvtColor resize img').2) ∧
        (∀ (b b' : Fin 1) (i : Fin h) (j : Fin w),
          (preprocessing215 cvtColor resize img).2 b b' i j = resize (cvtColor img) i j)) ∧
    (∀ (H W h w C : Nat)
        (resize : (Fin H → Fin W → Fin C → Nat) → (Fin h → Fin w → Fin C → Nat))
        (image image' : Fin H → Fin W → Fin C → Nat),
        (input_data002 resize image).1 = image ∧
        (image = image' →
          (input_data002 resize image).2 = (input_data002 resize image').2) ∧
        (∀ (b : Fin 1) (c : Fin C) (i : Fin h) (j : Fin w),
          (input_data002 resize image).2 b c i j = (resize image i j c : ℚ))) := by
  constructor
  · intro H W h w cvtColor resize img img'
    exact ⟨rfl, fun he => by rw [he], fun b b' i j => rfl⟩
  · intro H W h w C resize image image'
    exact ⟨rfl, fun he => by rw [he], fun b c i j => rfl⟩

/-- Witness for C4: the re-run determinism instances at concrete 1×1
frames, with the equal-input hypotheses discharged by `rfl`. -/
theorem preprocessing_pure_deterministic_witness :
    (preprocessing215 exCvt exResizeG exImg).2 = (preprocessing215 exCvt exResizeG exImg).2 ∧
      (input_data002 exResize002 exImg002).2 = (input_data002 exResize002 exImg002).2 :=
  ⟨(preprocessing_pure_deterministic.1 1 1 1 1 exCvt exResizeG exImg exImg).2.1 rfl,
    (preprocessing_pure_deterministic.2 1 1 1 1 1 exResize002 exImg002 exImg002).2.1 rfl⟩

/-! ### Scheduler invariants -/

/-- Refilling touches only the in-flight list and the submit counter. -/
theorem fillFuel_frame (N M : Nat) (fuel : Nat) :
    ∀ (s : PipelineState),
      (fillFuel N M fuel s).cursor = s.cursor ∧
      (fillFuel N M fuel s).buffer = s.buffer ∧
      (fillFuel N M fuel s).renders = s.renders ∧
      (fillFuel N M fuel s).error = s.error := by
  induction fuel with
  | zero => intro s; exact ⟨rfl, rfl, rfl, rfl⟩
  | succ fuel ih =>
    intro s
    unfold fillFuel
    split
    · exact ih _
    · exact ⟨rfl, rfl, rfl, rfl⟩

/-- Draining the buffer touches neither the in-flight list nor the
submit counter. -/
theorem flushFuel_frame (failAt : Option Nat) (fuel : Nat) :
    ∀ (s : PipelineState),
      (flushFuel failAt fuel s).inflight = s.inflight ∧
      (flushFuel failAt fuel s).nextSubmit = s.nextSubmit := by
  induction fuel with
  | zero => intro s; exact ⟨rfl, rfl⟩
  | succ fuel ih =>
    intro s
    unfold flushFuel
    split
    · split
      · exact ⟨rfl, rfl⟩
      · exact ih _
    · exact ⟨rfl, rfl⟩

/-- Specification of the buffer drain: with enough fuel it preserves the
scheduler invariants, leaves the cursor off the buffer (or surfaces the
failing frame as the error at the cursor's position), never renders past
the failing frame, and preserves the completed count on success. -/
theorem flushFuel_spec (failAt : Option Nat) (fuel : Nat) :
    ∀ (s : PipelineState),
      s.error = none →
      s.renders = List.range s.cursor →
      s.cursor ≤ s.nextSubmit →
      ((s.inflight : Multiset Nat) + (s.buffer : Multiset Nat) =
        (List.range' s.cursor (s.nextSubmit - s.cursor) : Multiset Nat)) →
      (∀ k, failAt = some k → s.cursor ≤ k) →
      s.buffer.length ≤ fuel →
      ((flushFuel failAt fuel s).renders = List.range (flushFuel failAt fuel s).cursor ∧
        (flushFuel failAt fuel s).cursor ≤ (flushFuel failAt fuel s).nextSubmit ∧
        (((flushFuel failAt fuel s).inflight : Multiset Nat) +
            ((flushFuel failAt fuel s).buffer : Multiset Nat) =
          (List.range' (flushFuel failAt fuel s).cursor
            ((flushFuel failAt fuel s).nextSubmit - (flushFuel failAt fuel s).cursor) :
              Multiset Nat)) ∧
        ((flushFuel failAt fuel s).error = none →
          (flushFuel failAt fuel s).cursor ∉ (flushFuel failAt fuel s).buffer) ∧
        ((flushFuel failAt fuel s).error = none →
          ∀ k, failAt = some k → (flushFuel failAt fuel s).cursor ≤ k) ∧
        ((flushFuel failAt fuel s).error = none →
          (flushFuel failAt fuel s).cursor + (flushFuel failAt fuel s).buffer.length =
            s.cursor + s.buffer.length) ∧
        (∀ e, (flushFuel failAt fuel s).error = some e →
          e = (flushFuel failAt fuel s).cursor ∧ failAt = some e)) := by
  induction fuel with
  | zero =>
    intro s herr hrend hcle hperm hkb hfuel
    have hbuf : s.buffer = [] := List.eq_nil_of_length_eq_zero (Nat.le_zero.mp hfuel)
    unfold flushFuel
    refine ⟨hrend, hcle, hperm, ?_, fun _ => hkb, fun _ => rfl, ?_⟩
    · intro _
      rw [hbuf]
      exact List.not_mem_nil _
    · intro e he
      rw [herr] at he
      cases he
  | succ fuel ih =>
    intro s herr hrend hcle hperm hkb hfuel
    unfold flushFuel
    by_cases hmem : s.cursor ∈ s.buffer
    · rw [if_pos hmem]
      by_cases hfail : failAt = some s.cursor
      · rw [if_pos hfail]
        refine ⟨hrend, hcle, hperm, ?_, ?_, ?_, ?_⟩
        · intro h; cases h
        · intro h; cases h
        · intro h; cases h
        · intro e he
          have he' : s.cursor = e := Option.some.inj he
          exact ⟨he'.symm, he' ▸ hfail⟩
      · rw [if_neg hfail]
        have hcur_mem : s.cursor ∈ List.range' s.cursor (s.nextSubmit - s.cursor) := by
          have h1 : s.cursor ∈ ((s.inflight : Multiset Nat) + (s.buffer : Multiset Nat)) :=
            Multiset.mem_add.mpr (Or.inr (Multiset.mem_coe.mpr hmem))
          rw [hperm] at h1
          exact Multiset.mem_coe.mp h1
        have hcur_lt : s.cursor < s.nextSubmit := by
          have := (List.mem_range'_1.mp hcur_mem).2
          omega
        have hlen_pos : 0 < s.buffer.length := List.length_pos.mpr (fun h => by
          rw [h] at hmem; exact List.not_mem_nil _ hmem)
        have hperm'' : ((s.inflight : Multiset Nat) + ((s.buffer.erase s.cursor : List Nat) : Multiset Nat) =
            (List.range' (s.cursor + 1) (s.nextSubmit - (s.cursor + 1)) : Multiset Nat)) := by
          have hsplit : s.nextSubmit - s.cursor = (s.nextSubmit - (s.cursor + 1)) + 1 := by omega
          rw [hsplit, List.range'_succ] at hperm
          have hbuf_eq : (s.buffer : Multiset Nat) =
              s.cursor ::ₘ (s.buffer : Multiset Nat).erase s.cursor :=
            (Multiset.cons_erase (Multiset.mem_coe.mpr hmem)).symm
          rw [hbuf_eq, Multiset.add_cons] at hperm
          have : ((s.cursor :: List.range' (s.cursor + 1) (s.nextSubmit - (s.cursor + 1)) :
              List Nat) : Multiset Nat) =
              s.cursor ::ₘ (List.range' (s.cursor + 1) (s.nextSubmit - (s.cursor + 1)) :
                Multiset Nat) := (Multiset.cons_coe _ _).symm
          rw [this] at hperm
          have hinner := (Multiset.cons_inj_right s.cursor).mp hperm
          rw [Multiset.coe_erase] at hinner
          exact hinner
        have hstep := ih { s with buffer := s.buffer.erase s.cursor,
                                  renders := s.renders ++ [s.cursor], cursor := s.cursor + 1 }
          herr
          (by
            show s.renders ++ [s.cursor] = List.range (s.cursor + 1)
            rw [hrend]
            exact (List.range_succ s.cursor).symm)
          (by show s.cursor + 1 ≤ s.nextSubmit; omega)
          hperm''
          (by
            intro k hk
            show s.cursor + 1 ≤ k
            have h1 := hkb k hk
            have h2 : k ≠ s.cursor := fun he => hfail (he ▸ hk)
            omega)
          (by
            show (s.buffer.erase s.cursor).length ≤ fuel
            have := List.length_erase_of_mem hmem
            omega)
        obtain ⟨a1, a2, a3, a4, a5, a6, a7⟩ := hstep
        refine ⟨a1, a2, a3, a4, a5, ?_, a7⟩
        intro hne
        have h6 := a6 hne
        have h6' : (flushFuel failAt fuel
            { s with buffer := s.buffer.erase s.cursor,
                     renders := s.renders ++ [s.cursor], cursor := s.cursor + 1 }).cursor +
            (flushFuel failAt fuel
            { s with buffer := s.buffer.erase s.cursor,
                     renders := s.renders ++ [s.cursor], cursor := s.cursor + 1 }).buffer.length =
            (s.cursor + 1) + (s.buffer.erase s.cursor).length := h6
        have hlen := List.length_erase_of_mem hmem
        rw [h6', hlen]
        omega
    · rw [if_neg hmem]
      exact ⟨hrend, hcle, hperm, fun _ => hmem, fun _ => hkb, fun _ => rfl, fun e he => by
        rw [herr] at he; cases he⟩

/-- Specification of the refill: with enough fuel it preserves the
scheduler invariants, keeps at most `N` requests in flight, and saturates
the slots (no idle slot is left while frames remain). -/
theorem fillFuel_spec (N M : Nat) (fuel : Nat) :
    ∀ (s : PipelineState),
      s.cursor ≤ s.nextSubmit →
      s.nextSubmit ≤ M →
      ((s.inflight : Multiset Nat) + (s.buffer : Multiset Nat) =
        (List.range' s.cursor (s.nextSubmit - s.cursor) : Multiset Nat)) →
      s.inflight.length ≤ N →
      M - s.nextSubmit ≤ fuel →
      ((fillFuel N M fuel s).cursor ≤ (fillFuel N M fuel s).nextSubmit ∧
        (fillFuel N M fuel s).nextSubmit ≤ M ∧
        (((fillFuel N M fuel s).inflight : Multiset Nat) +
            ((fillFuel N M fuel s).buffer : Multiset Nat) =
          (List.range' (fillFuel N M fuel s).cursor
            ((fillFuel N M fuel s).nextSubmit - (fillFuel N M fuel s).cursor) : Multiset Nat)) ∧
        (fillFuel N M fuel s).inflight.length ≤ N ∧
        ¬((fillFuel N M fuel s).nextSubmit < M ∧ (fillFuel N M fuel s).inflight.length < N)) := by
  induction fuel with
  | zero =>
    intro s hcle hsub hperm hlen hfuel
    unfold fillFuel
    exact ⟨hcle, hsub, hperm, hlen, fun hcon => by omega⟩
  | succ fuel ih =>
    intro s hcle hsub hperm hlen hfuel
    unfold fillFuel
    by_cases hc : s.nextSubmit < M ∧ s.inflight.length < N
    · rw [if_pos hc]
      refine ih { s with inflight := s.inflight ++ [s.nextSubmit],
                         nextSubmit := s.nextSubmit + 1 }
        (by show s.cursor ≤ s.nextSubmit + 1; omega)
        (by show s.nextSubmit + 1 ≤ M; omega)
        ?_
        (by
          show (s.inflight ++ [s.nextSubmit]).length ≤ N
          rw [List.length_append]
          simp only [List.length_singleton]
          omega)
        (by show M - (s.nextSubmit + 1) ≤ fuel; omega)
      show ((s.inflight ++ [s.nextSubmit] : List Nat) : Multiset Nat) + (s.buffer : Multiset Nat) =
        (List.range' s.cursor (s.nextSubmit + 1 - s.cursor) : Multiset Nat)
      have hsplit : s.nextSubmit + 1 - s.cursor = (s.nextSubmit - s.cursor) + 1 := by omega
      rw [hsplit, List.range'_concat]
      simp only [one_mul]
      have hval : s.cursor + (s.nextSubmit - s.cursor) = s.nextSubmit := by omega
      rw [hval, ← Multiset.coe_add, ← Multiset.coe_add, ← hperm]
      exact add_right_comm _ _ _
    · rw [if_neg hc]
      exact ⟨hcle, hsub, hperm, hlen, hc⟩

/-- Specification of a single request completion: the invariants survive,
the completed count grows by one on success, the cursor never passes the
failing frame, and the slot of frame `j` is freed. -/
theorem completeReq_spec (failAt : Option Nat) (j : Nat) (s : PipelineState)
    (herr : s.error = none)
    (hj : j ∈ s.inflight)
    (hrend : s.renders = List.range s.cursor)
    (hcle : s.cursor ≤ s.nextSubmit)
    (hperm : ((s.inflight : Multiset Nat) + (s.buffer : Multiset Nat) =
      (List.range' s.cursor (s.nextSubmit - s.cursor) : Multiset Nat)))
    (hkb : ∀ k, failAt = some k → s.cursor ≤ k) :
    ((completeReq failAt j s).renders = List.range (completeReq failAt j s).cursor ∧
      (completeReq failAt j s).cursor ≤ (completeReq failAt j s).nextSubmit ∧
      (((completeReq failAt j s).inflight : Multiset Nat) +
          ((completeReq failAt j s).buffer : Multiset Nat) =
        (List.range' (completeReq failAt j s).cursor
          ((completeReq failAt j s).nextSubmit - (completeReq failAt j s).cursor) :
            Multiset Nat)) ∧
      ((completeReq failAt j s).error = none →
        (completeReq failAt j s).cursor ∉ (completeReq failAt j s).buffer) ∧
      ((completeReq failAt j s).error = none →
        ∀ k, failAt = some k → (completeReq failAt j s).cursor ≤ k) ∧
      ((completeReq failAt j s).error = none →
        (completeReq failAt j s).cursor + (completeReq failAt j s).buffer.length =
          s.cursor + s.buffer.length + 1) ∧
      (∀ e, (completeReq failAt j s).error = some e →
        e = (completeReq failAt j s).cursor ∧ failAt = some e) ∧
      (completeReq failAt j s).inflight = s.inflight.erase j ∧
      (completeReq failAt j s).nextSubmit = s.nextSubmit) := by
  have hperm1 : (((s.inflight.erase j : List Nat)) : Multiset Nat) +
      ((s.buffer ++ [j] : List Nat) : Multiset Nat) =
      (List.range' s.cursor (s.nextSubmit - s.cursor) : Multiset Nat) := by
    calc (((s.inflight.erase j : List Nat)) : Multiset Nat) +
        ((s.buffer ++ [j] : List Nat) : Multiset Nat)
        = (s.inflight : Multiset Nat).erase j +
            ((s.buffer : Multiset Nat) + {j}) := by
          rw [Multiset.coe_erase, ← Multiset.coe_add, Multiset.coe_singleton]
      _ = ((s.inflight : Multiset Nat).erase j + {j}) + (s.buffer : Multiset Nat) := by
          rw [add_comm (s.buffer : Multiset Nat) ({j} : Multiset Nat), ← add_assoc]
      _ = (j ::ₘ (s.inflight : Multiset Nat).erase j) + (s.buffer : Multiset Nat) := by
          rw [add_comm ((s.inflight : Multiset Nat).erase j) ({j} : Multiset Nat),
            Multiset.singleton_add]
      _ = (s.inflight : Multiset Nat) + (s.buffer : Multiset Nat) := by
          rw [Multiset.cons_erase (Multiset.mem_coe.mpr hj)]
      _ = (List.range' s.cursor (s.nextSubmit - s.cursor) : Multiset Nat) := hperm
  have hspec := flushFuel_spec failAt (s.buffer ++ [j]).length
    { s with inflight := s.inflight.erase j, buffer := s.buffer ++ [j] }
    herr hrend hcle hperm1 hkb (le_refl _)
  have hframe := flushFuel_frame failAt (s.buffer ++ [j]).length
    { s with inflight := s.inflight.erase j, buffer := s.buffer ++ [j] }
  obtain ⟨a1, a2, a3, a4, a5, a6, a7⟩ := hspec
  refine ⟨a1, a2, a3, a4, a5, ?_, a7, hframe.1, hframe.2⟩
  intro hne
  have h6 := a6 hne
  have hlen : (s.buffer ++ [j]).length = s.buffer.length + 1 := by
    rw [List.length_append, List.length_singleton]
  unfold completeReq
  rw [h6]
  show s.cursor + (s.buffer ++ [j]).length = s.cursor + s.buffer.length + 1
  omega


/-- One completion event preserves the invariant; moreover a failed run
stays frozen, an exhausted run is a no-op, and a successful event
completes exactly one more frame. -/
theorem step_spec (N M : Nat) (failAt : Option Nat) (pick : Nat) (s : PipelineState)
    (h : Inv N M failAt s) :
    Inv N M failAt (step N M failAt pick s) ∧
      (s.error.isSome = true → step N M failAt pick s = s) ∧
      (s.error = none → s.inflight.isEmpty = true → step N M failAt pick s = s) ∧
      (s.error = none → s.inflight.isEmpty = false →
        (step N M failAt pick s).error = none →
        (step N M failAt pick s).cursor + (step N M failAt pick s).buffer.length =
          s.cursor + s.buffer.length + 1) := by
  by_cases hsome : s.error.isSome = true
  · have hstep : step N M failAt pick s = s := by unfold step; rw [if_pos hsome]
    refine ⟨by rw [hstep]; exact h, fun _ => hstep, fun _ _ => hstep, fun herr _ _ => ?_⟩
    rw [herr] at hsome
    cases hsome
  · have herr : s.error = none := Option.not_isSome_iff_eq_none.mp hsome
    by_cases hemp : s.inflight.isEmpty = true
    · have hstep : step N M failAt pick s = s := by
        unfold step; rw [if_neg hsome, if_pos hemp]
      refine ⟨by rw [hstep]; exact h, fun hs => absurd hs hsome, fun _ _ => hstep,
        fun _ hne _ => ?_⟩
      rw [hemp] at hne
      cases hne
    · have hemp' : s.inflight.isEmpty = false := by
        revert hemp; cases s.inflight.isEmpty <;> simp
      have hnil : s.inflight ≠ [] := by
        intro hn
        rw [hn] at hemp'
        cases hemp'
      have hlen0 : 0 < s.inflight.length := List.length_pos.mpr hnil
      have hmod : pick % s.inflight.length < s.inflight.length := Nat.mod_lt _ hlen0
      have hjmem : s.inflight.getD (pick % s.inflight.length) 0 ∈ s.inflight := by
        rw [List.getD_eq_getElem?_getD, List.getElem?_eq_getElem hmod, Option.getD_some]
        exact List.getElem_mem hmod
      have hstep : step N M failAt pick s =
          (if (completeReq failAt (s.inflight.getD (pick % s.inflight.length) 0) s).error.isSome
           then completeReq failAt (s.inflight.getD (pick % s.inflight.length) 0) s
           else fillFuel N M M
             (completeReq failAt (s.inflight.getD (pick % s.inflight.length) 0) s)) := by
        unfold step
        rw [if_neg hsome, if_neg hemp]
      obtain ⟨c1, c2, c3, c4, c5, c6, c7, c8, c9⟩ :=
        completeReq_spec failAt (s.inflight.getD (pick % s.inflight.length) 0) s
          herr hjmem h.renders_eq h.cursor_le h.window (h.cursor_le_fail herr)
      have hinfl_le :
          (completeReq failAt (s.inflight.getD (pick % s.inflight.length) 0) s).inflight.length ≤
            N := by
        rw [c8]
        exact le_trans (List.Sublist.length_le (List.erase_sublist _ _)) h.inflight_le
      by_cases h2some :
          (completeReq failAt (s.inflight.getD (pick % s.inflight.length) 0) s).error.isSome = true
      · have hstep2 : step N M failAt pick s =
            completeReq failAt (s.inflight.getD (pick % s.inflight.length) 0) s := by
          rw [hstep, if_pos h2some]
        have hinv : Inv N M failAt
            (completeReq failAt (s.inflight.getD (pick % s.inflight.length) 0) s) :=
          { renders_eq := c1
            cursor_le := c2
            submit_le := by rw [c9]; exact h.submit_le
            window := c3
            inflight_le := hinfl_le
            cursor_unbuffered := fun hn => absurd h2some (by rw [hn]; simp)
            filled := fun hn => absurd h2some (by rw [hn]; simp)
            cursor_le_fail := fun hn => absurd h2some (by rw [hn]; simp)
            error_sound := c7 }
        refine ⟨?_, ?_, ?_, ?_⟩
        · rw [hstep2]; exact hinv
        · intro hs; exact absurd hs hsome
        · intro _ he; rw [he] at hemp'; cases hemp'
        · intro _ _ hE
          rw [hstep2] at hE
          rw [hE] at h2some
          cases h2some
      · have h2err :
            (completeReq failAt (s.inflight.getD (pick % s.inflight.length) 0) s).error = none :=
          Option.not_isSome_iff_eq_none.mp h2some
        have hstep2 : step N M failAt pick s =
            fillFuel N M M
              (completeReq failAt (s.inflight.getD (pick % s.inflight.length) 0) s) := by
          rw [hstep, if_neg h2some]
        obtain ⟨f1, f2, f3, f4, f5⟩ :=
          fillFuel_spec N M M
            (completeReq failAt (s.inflight.getD (pick % s.inflight.length) 0) s)
            c2 (by rw [c9]; exact h.submit_le) c3 hinfl_le (Nat.sub_le _ _)
        obtain ⟨fr1, fr2, fr3, fr4⟩ :=
          fillFuel_frame N M M
            (completeReq failAt (s.inflight.getD (pick % s.inflight.length) 0) s)
        have hinv : Inv N M failAt
            (fillFuel N M M
              (completeReq failAt (s.inflight.getD (pick % s.inflight.length) 0) s)) :=
          { renders_eq := by rw [fr3, fr1]; exact c1
            cursor_le := f1
            submit_le := f2
            window := f3
            inflight_le := f4
            cursor_unbuffered := fun _ => by rw [fr1, fr2]; exact c4 h2err
            filled := fun _ => f5
            cursor_le_fail := fun _ => by rw [fr1]; exact c5 h2err
            error_sound := fun e he => by rw [fr4, h2err] at he; cases he }
        refine ⟨?_, ?_, ?_, ?_⟩
        · rw [hstep2]; exact hinv
        · intro hs; exact absurd hs hsome
        · intro _ he; rw [he] at hemp'; cases hemp'
        · intro _ _ _
          rw [hstep2, fr1, fr2]
          exact c6 h2err

/-- The scheduler invariant holds at every observable state of a run. -/
theorem inv_stateAt (N M : Nat) (failAt : Option Nat) (sched : Nat → Nat) :
    ∀ t, Inv N M failAt (stateAt N M failAt sched t) := by
  intro t
  induction t with
  | zero =>
    show Inv N M failAt (fillFuel N M M initState)
    obtain ⟨f1, f2, f3, f4, f5⟩ :=
      fillFuel_spec N M M initState (Nat.le_refl 0) (Nat.zero_le M) (by rfl)
        (Nat.zero_le N) (Nat.sub_le M 0)
    obtain ⟨fr1, fr2, fr3, fr4⟩ := fillFuel_frame N M M initState
    exact
      { renders_eq := by rw [fr3, fr1]; rfl
        cursor_le := f1
        submit_le := f2
        window := f3
        inflight_le := f4
        cursor_unbuffered := fun _ => by rw [fr1, fr2]; exact List.not_mem_nil _
        filled := fun _ => f5
        cursor_le_fail := fun _ k _ => by rw [fr1]; exact Nat.zero_le k
        error_sound := fun e he => by rw [fr4] at he; cases he }
  | succ t ih => exact (step_spec N M failAt (sched t) _ ih).1

/-- Counting the invariant's window: in-flight plus buffered frames are
exactly the submitted-but-unrendered ones. -/
theorem inv_card {N M : Nat} {failAt : Option Nat} {s : PipelineState}
    (h : Inv N M failAt s) :
    s.inflight.length + s.buffer.length = s.nextSubmit - s.cursor := by
  have hc := congrArg Multiset.card h.window
  simpa [Multiset.card_add, Multiset.coe_card] using hc

/-- In an errorless state whose completed count has reached `M`, the run
is finished: the cursor sits at `M` and all frames are rendered in order. -/
theorem inv_final {N M : Nat} {failAt : Option Nat} {s : PipelineState}
    (h : Inv N M failAt s) (herr : s.error = none)
    (hdone : s.cursor + s.buffer.length = M) :
    s.cursor = M ∧ s.renders = List.range M ∧ s.inflight = [] ∧ s.buffer.length = 0 := by
  have hcard := inv_card h
  have hcle := h.cursor_le
  have hsub := h.submit_le
  have hlen0 : s.inflight.length = 0 := by omega
  have hnil : s.inflight = [] := List.eq_nil_of_length_eq_zero hlen0
  have hcur : s.cursor = s.nextSubmit := by
    by_contra hne
    have hlt : s.cursor < s.nextSubmit := by omega
    have hmem : s.cursor ∈ List.range' s.cursor (s.nextSubmit - s.cursor) :=
      List.mem_range'_1.mpr ⟨Nat.le_refl _, by omega⟩
    have hmem' : s.cursor ∈ ((s.inflight : Multiset Nat) + (s.buffer : Multiset Nat)) := by
      rw [h.window]
      exact Multiset.mem_coe.mpr hmem
    rcases Multiset.mem_add.mp hmem' with hin | hin
    · rw [hnil] at hin
      exact List.not_mem_nil _ (Multiset.mem_coe.mp hin)
    · exact h.cursor_unbuffered herr (Multiset.mem_coe.mp hin)
  have hbuf : s.buffer.length = 0 := by omega
  refine ⟨by omega, ?_, hnil, hbuf⟩
  rw [h.renders_eq]
  have : s.cursor = M := by omega
  rw [this]

/-- The completed count after `t` completion events of an errorless run
is exactly `min t M`. -/
theorem done_stateAt (N M : Nat) (failAt : Option Nat) (sched : Nat → Nat) (hN : 1 ≤ N) :
    ∀ t, (stateAt N M failAt sched t).error = none →
      (stateAt N M failAt sched t).cursor + (stateAt N M failAt sched t).buffer.length =
        min t M := by
  intro t
  induction t with
  | zero =>
    intro _
    obtain ⟨fr1, fr2, fr3, fr4⟩ := fillFuel_frame N M M initState
    show (fillFuel N M M initState).cursor + (fillFuel N M M initState).buffer.length = min 0 M
    rw [fr1, fr2]
    show 0 + ([] : List Nat).length = min 0 M
    simp
  | succ t ih =>
    intro herr'
    have hInv := inv_stateAt N M failAt sched t
    obtain ⟨S1, S2, S3, S4⟩ := step_spec N M failAt (sched t) _ hInv
    have hsteq : stateAt N M failAt sched (t + 1) =
        step N M failAt (sched t) (stateAt N M failAt sched t) := rfl
    have herr : (stateAt N M failAt sched t).error = none := by
      by_cases hs : (stateAt N M failAt sched t).error.isSome = true
      · rw [hsteq, S2 hs] at herr'
        exact herr'
      · exact Option.not_isSome_iff_eq_none.mp hs
    have hdone := ih herr
    have hcard := inv_card hInv
    have hcle := hInv.cursor_le
    have hsub := hInv.submit_le
    by_cases hemp : (stateAt N M failAt sched t).inflight.isEmpty = true
    · have hnil : (stateAt N M failAt sched t).inflight = [] := List.isEmpty_iff.mp hemp
      have hlen0 : (stateAt N M failAt sched t).inflight.length = 0 := by rw [hnil]; rfl
      have hfill := hInv.filled herr
      have hns : (stateAt N M failAt sched t).nextSubmit = M := by
        by_contra hne
        exact hfill ⟨by omega, by omega⟩
      rw [hsteq, S3 herr hemp]
      omega
    · have hemp' : (stateAt N M failAt sched t).inflight.isEmpty = false := by
        revert hemp
        cases (stateAt N M failAt sched t).inflight.isEmpty <;> simp
      have hlen0 : 0 < (stateAt N M failAt sched t).inflight.length := by
        rcases hl : (stateAt N M failAt sched t).inflight with _ | ⟨a, l⟩
        · rw [hl] at hemp'; cases hemp'
        · simp
      have hincr := S4 herr hemp' (by rw [← hsteq]; exact herr')
      rw [← hsteq] at hincr
      omega

/-- C1: for every concurrency bound `N ≥ 1`, every frame count `M ≥ 0`,
and every order in which in-flight requests complete, the run delivers
exactly `M` render calls, bearing the distinct frame indices
`0, 1, …, M−1` in strictly increasing order. -/
theorem pipeline_renders_in_order (N M : Nat) (sched : Nat → Nat) (hN : 1 ≤ N) :
    (runPipeline N M none sched).renders = List.range M := by
  have hInv := inv_stateAt N M none sched M
  have herr : (stateAt N M none sched M).error = none := by
    cases he : (stateAt N M none sched M).error with
    | none => rfl
    | some e => cases (hInv.error_sound e he).2
  have hdone := done_stateAt N M none sched hN M herr
  simp only [Nat.min_self] at hdone
  exact (inv_final hInv herr hdone).2.1

/-- Witness for C1: a bound-2 run over 3 frames renders `[0, 1, 2]`. -/
theorem pipeline_renders_in_order_witness :
    (runPipeline 2 3 none (fun _ => 0)).renders = List.range 3 :=
  pipeline_renders_in_order 2 3 (fun _ => 0) (by decide)

/-- C2: at every instant of a run (after the initial fill and after each
completion event) at most `N` Requests are in the Submitted state, and
the count of submitted frames never exceeds the completed count plus `N`
— so frame `i+N` is submitted only after an earlier frame's slot freed. -/
theorem pipeline_bounded_inflight (N M : Nat) (failAt : Option Nat) (sched : Nat → Nat)
    (t : Nat) :
    (stateAt N M failAt sched t).inflight.length ≤ N ∧
      (stateAt N M failAt sched t).nextSubmit ≤
        (stateAt N M failAt sched t).cursor + (stateAt N M failAt sched t).buffer.length + N := by
  have hInv := inv_stateAt N M failAt sched t
  have hcard := inv_card hInv
  have hcle := hInv.cursor_le
  have hil := hInv.inflight_le
  exact ⟨hil, by omega⟩

/-- C6: fail-fast — when the Inference Engine fails the Request bound to
frame `k` in a run of `M > k` frames, the run aborts having rendered
exactly frames `0, …, k−1` (never frame `k` or any later one), and the
surfaced error carries index `k`. -/
theorem pipeline_failfast (N M k : Nat) (sched : Nat → Nat) (hN : 1 ≤ N) (hk : k < M) :
    (runPipeline N M (some k) sched).error = some k ∧
      (runPipeline N M (some k) sched).renders = List.range k := by
  have hInv := inv_stateAt N M (some k) sched M
  cases he : (stateAt N M (some k) sched M).error with
  | none =>
    exfalso
    have hdone := done_stateAt N M (some k) sched hN M he
    simp only [Nat.min_self] at hdone
    have hcur := (inv_final hInv he hdone).1
    have hle := hInv.cursor_le_fail he k rfl
    omega
  | some e =>
    have hes := hInv.error_sound e he
    have hek : e = k := (Option.some.inj hes.2).symm
    constructor
    · show (stateAt N M (some k) sched M).error = some k
      rw [he, hek]
    · show (stateAt N M (some k) sched M).renders = List.range k
      rw [hInv.renders_eq, ← hes.1, hek]

/-- Witness for C6: with bound 2 and 3 frames, failing frame 1 renders
only frame 0 and surfaces error index 1. -/
theorem pipeline_failfast_witness :
    (runPipeline 2 3 (some 1) (fun _ => 0)).error = some 1 ∧
      (runPipeline 2 3 (some 1) (fun _ => 0)).renders = List.range 1 :=
  pipeline_failfast 2 3 1 (fun _ => 0) (by decide) (by decide)

/-- C7: a run over an empty frame sequence performs zero render calls,
and the Throughput Reporter yields 0 fps for zero completed frames over
any positive elapsed wall-time — no division-by-zero occurs. -/
theorem pipeline_empty_run (N : Nat) (failAt : Option Nat) (sched : Nat → Nat)
    (elapsed : ℚ) (hpos : 0 < elapsed) :
    (runPipeline N 0 failAt sched).renders = [] ∧ throughput_fps 0 elapsed = 0 := by
  refine ⟨rfl, ?_⟩
  unfold throughput_fps
  simp

/-- Witness for C7: the empty run with unit elapsed time. -/
theorem pipeline_empty_run_witness :
    (runPipeline 1 0 none (fun _ => 0)).renders = [] ∧ throughput_fps 0 1 = 0 :=
  pipeline_empty_run 1 none (fun _ => 0) 1 one_pos

end OVNotebooks
